import Mathlib

/-!
# Verification of the provider orchestration layer

Shallow embedding of the provider-orchestration code of the image-generation
backend: the `BaseImageProvider` helpers (error classification, retry with
backoff, prompt truncation, size standardization) and the `ProviderManager`
(provider scoring, selection, fallback chain, metric recording).

Conventions of the embedding:
* JS numbers are modelled as `ℚ` (scores, costs, delays) or `Int`/`Nat`
  (dimensions, counters, HTTP status codes); all arithmetic in the embedded
  code paths is exact on these values.
* JS strings are modelled as `List Char` where character-level operations
  matter (error messages, prompts) and as `String` for opaque labels.
* A thrown JS error is an explicit `JsError` value; fallible code returns
  `Except JsError α`.
* Async calls are pure: each adapter is represented by the responses it gives
  to the single request under consideration (`AdapterBehavior`).
* Wall-clock values (durations, timestamps) are not modelled; retry delays are
  modelled as the exact millisecond amounts passed to the sleep call.
-/

namespace ImagePrompt

/-- The `ImageProvider` union type of the backend (`types.ts`). -/
inductive ImageProvider
  | dalleE3
  | imagen4
  | stableDiffusion
deriving DecidableEq, Repr

/-- The JS `response` object attached to a thrown HTTP error, as read by
`BaseImageProvider.mapError`: the HTTP status, the parsed integer value of the
`retry-after` header when that header is present, and the nested
`data.error.message` text when present. -/
structure ErrorResponse where
  status : Int
  retryAfterHeader : Option Int
  dataErrorMessage : Option (List Char)
deriving DecidableEq, Repr

/-- A JS error value as thrown by an adapter call: its `message` string and
its optional HTTP `response`. -/
structure JsError where
  message : List Char
  response : Option ErrorResponse
deriving DecidableEq, Repr

/-- `ProviderError` of `baseProvider.ts`. -/
structure ProviderError where
  code : String
  message : List Char
  retryable : Bool
  retryAfter : Option Int
deriving DecidableEq, Repr

namespace BaseImageProvider

/-- `BaseImageProvider.mapError` (`baseProvider.ts` lines 71-112).  The JS
checks `error.response?.status`, so all status branches require a `response`;
`parseInt(error.response.headers[...] || '60')` is modelled as the parsed
header value, defaulting to `60` when the header is absent. -/
def mapError (error : JsError) : ProviderError :=
  match error.response with
  | some resp =>
    if resp.status = 429 then
      ⟨"RATE_LIMIT_EXCEEDED", "Rate limit exceeded".data, true,
        some (resp.retryAfterHeader.getD 60)⟩
    else if 500 ≤ resp.status then
      ⟨"SERVER_ERROR", "Provider server error".data, true, none⟩
    else if resp.status = 400 then
      ⟨"INVALID_REQUEST", resp.dataErrorMessage.getD "Invalid request parameters".data,
        false, none⟩
    else if resp.status = 401 then
      ⟨"UNAUTHORIZED", "Invalid API key or authentication failed".data, false, none⟩
    else
      ⟨"UNKNOWN_ERROR",
        (if error.message = [] then "Unknown error occurred".data else error.message),
        false, none⟩
  | none =>
      ⟨"UNKNOWN_ERROR",
        (if error.message = [] then "Unknown error occurred".data else error.message),
        false, none⟩

/-- JS `Math.round` on an exact rational: round half toward positive
infinity, `⌊x + 1/2⌋`. -/
def jsRound (x : ℚ) : Int :=
  Int.floor (x + 1 / 2)

/-- The local `roundTo64` of `BaseImageProvider.standardizeImageSize`:
`Math.round(value / 64) * 64`. -/
def roundTo64 (value : Int) : Int :=
  jsRound ((value : ℚ) / 64) * 64

/-- `BaseImageProvider.standardizeImageSize` (`baseProvider.ts` lines
114-125).  A dimension is an optional integer; the JS conditional
`width ? ... : defaultSize` treats `0` (and absence) as falsy. -/
def standardizeImageSize (width height : Option Int) : Int × Int :=
  let defaultSize : Int := 1024
  let finalWidth : Int :=
    match width with
    | some w => if w = 0 then defaultSize else roundTo64 (max 256 (min 2048 w))
    | none => defaultSize
  let finalHeight : Int :=
    match height with
    | some h => if h = 0 then defaultSize else roundTo64 (max 256 (min 2048 h))
    | none => defaultSize
  (finalWidth, finalHeight)

/-- JS `String.prototype.lastIndexOf` for a single character on a string
modelled as `List Char`: the largest index holding `c`, or `-1` when `c` does
not occur. -/
def lastIndexOf (c : Char) : List Char → Int
  | [] => -1
  | a :: rest =>
    let r := lastIndexOf c rest
    if 0 ≤ r then r + 1
    else if a = c then 0 else -1

/-- `BaseImageProvider.truncatePrompt` (`baseProvider.ts` lines 127-137):
return the prompt unchanged when within the limit, else take the first
`maxLength` characters and cut back to the last space when one occurs at a
positive index. -/
def truncatePrompt (prompt : List Char) (maxLength : Nat) : List Char :=
  if prompt.length ≤ maxLength then prompt
  else
    let truncated := prompt.take maxLength
    let lastSpace := lastIndexOf ' ' truncated
    if 0 < lastSpace then truncated.take lastSpace.toNat else truncated

/-- One step of the retry loop of `BaseImageProvider.retryWithBackoff`
(`baseProvider.ts` lines 139-164).  `op attempt` is the outcome of the
wrapped operation on that attempt; the second component collects the
millisecond delays passed to the sleep between attempts.  The `fuel`
argument counts the loop iterations still allowed (`maxRetries + 1 -
attempt` in every reachable call); when it runs out the loop has exited and
the final `throw new Error('Max retries exceeded')` runs. -/
def retryGo {α : Type} (op : Nat → Except JsError α) (maxRetries : Nat) (baseDelay : ℚ) :
    Nat → Nat → Except JsError α × List ℚ
  | _, 0 => (.error ⟨"Max retries exceeded".data, none⟩, [])
  | attempt, fuel + 1 =>
    match op attempt with
    | .ok v => (.ok v, [])
    | .error e =>
      let providerError := mapError e
      if providerError.retryable = false ∨ attempt = maxRetries then
        (.error e, [])
      else
        let delay : ℚ :=
          match providerError.retryAfter with
          | some ra => if ra = 0 then baseDelay * 2 ^ (attempt - 1) else (ra : ℚ) * 1000
          | none => baseDelay * 2 ^ (attempt - 1)
        let rest := retryGo op maxRetries baseDelay (attempt + 1) fuel
        (rest.1, delay :: rest.2)

/-- `BaseImageProvider.retryWithBackoff`: run the retry loop from attempt 1.
Defaults in the source are `maxRetries = 3`, `baseDelay = 1000`.  The JS
conditional `providerError.retryAfter ? ... : ...` treats a `retryAfter` of
`0` as falsy, which `retryGo` mirrors. -/
def retryWithBackoff {α : Type} (op : Nat → Except JsError α) (maxRetries : Nat)
    (baseDelay : ℚ) : Except JsError α × List ℚ :=
  retryGo op maxRetries baseDelay 1 maxRetries

end BaseImageProvider

/-- `ProviderCapabilities` of `baseProvider.ts`.  The TS interface declares no
`name` field and none of the three concrete `getCapabilities()`
implementations returns one, yet `ProviderManager.calculateProviderScore`
(typed `capabilities: any`) reads `capabilities.name`; that property access
yields `undefined`.  The embedding keeps the access faithful by carrying the
field as an `Option` that is `none` on every capabilities record built by the
repository. -/
structure ProviderCapabilities where
  maxImageSizeWidth : Int
  maxImageSizeHeight : Int
  supportedSizes : List String
  supportedFormats : List String
  maxPromptLength : Int
  supportsNegativePrompts : Bool
  supportsStylePresets : Bool
  maxBatchSize : Int
  costPerImage : ℚ
  name : Option ImageProvider
deriving DecidableEq, Repr

/-- `CostEstimate` of `baseProvider.ts` (currency is always USD and the
breakdown is informational; neither is read by the orchestration code). -/
structure CostEstimate where
  totalCost : ℚ
  costPerImage : ℚ
deriving DecidableEq, Repr

/-- `ProviderConfig` of the provider manager. -/
structure ProviderConfig where
  enabled : Bool
  priority : ℚ
  maxRetries : Nat
  healthCheckInterval : ℚ
  costWeight : ℚ
  qualityWeight : ℚ
  speedWeight : ℚ
deriving DecidableEq, Repr

/-- The `metadata` of an `ImageResult` that the manager reads back: the
serving provider and the cost.  URLs and settings are opaque payload. -/
structure ImageResult where
  provider : ImageProvider
  cost : ℚ
deriving DecidableEq, Repr

/-- The observable behavior of one provider adapter for the single request
under consideration: the verdict of `validateParams`, the outcome of
`generateImage` (result or thrown error), the `estimateCost` value and the
static `getCapabilities()` record.  This specialises the three concrete
adapter classes behind the `BaseImageProvider` contract to one request. -/
structure AdapterBehavior where
  validationValid : Bool
  generate : Except JsError ImageResult
  estimateCost : CostEstimate
  capabilities : ProviderCapabilities

/-- The fields of `UnifiedImageParams` read by the provider manager itself:
the prompt (only logged) and the optional explicit provider. -/
structure UnifiedImageParams where
  prompt : List Char
  provider : Option ImageProvider
deriving DecidableEq, Repr

/-- `ProviderSelection` of the provider manager. -/
structure ProviderSelection where
  provider : ImageProvider
  reason : String
  estimatedCost : ℚ
  confidence : ℚ
deriving DecidableEq, Repr

/-- The state of a `ProviderManager` instance: the `providers` map (absent
entry = adapter not registered because its credential was missing), the
`config` map (populated for all three names by `initializeDefaultConfig`,
hence total) and the `healthStatus` map. -/
structure ManagerState where
  providers : ImageProvider → Option AdapterBehavior
  config : ImageProvider → ProviderConfig
  healthStatus : ImageProvider → Option Bool

/-- The fixed provider list of `getFallbackProviders`, which is also the
insertion order of the `providers` map in `initializeProviders`. -/
def allProviders : List ImageProvider :=
  [.dalleE3, .imagen4, .stableDiffusion]

namespace ProviderManager

/-- `ProviderManager.isProviderAvailable`: registered, enabled, and
last-known-healthy (`healthStatus.get(provider) === true`). -/
def isProviderAvailable (st : ManagerState) (provider : ImageProvider) : Bool :=
  (st.providers provider).isSome && (st.config provider).enabled &&
    decide (st.healthStatus provider = some true)

/-- `ProviderManager.calculateProviderScore` (lines 237-276).  The `params`
argument of the source is not read by the function body and is omitted.
`healthStatus` is the manager's health map; the lookup key is
`capabilities.name`, which is `undefined` (`none`) on every capabilities
record the repository builds, in which case both the speed-score lookup and
the health lookup miss. -/
def calculateProviderScore (healthStatus : ImageProvider → Option Bool)
    (capabilities : ProviderCapabilities) (cost : CostEstimate)
    (config : ProviderConfig) : ℚ :=
  let maxCost : ℚ := 20 / 100
  let costScore : ℚ := max 0 ((maxCost - cost.costPerImage) / maxCost)
  let score₁ : ℚ := costScore * config.costWeight
  let qualityScore₀ : ℚ := 1 / 2
  let qualityScore₁ : ℚ :=
    if 1024 ≤ capabilities.maxImageSizeWidth then qualityScore₀ + 2 / 10 else qualityScore₀
  let qualityScore₂ : ℚ :=
    if capabilities.supportsNegativePrompts then qualityScore₁ + 1 / 10 else qualityScore₁
  let qualityScore₃ : ℚ :=
    if capabilities.supportsStylePresets then qualityScore₂ + 1 / 10 else qualityScore₂
  let qualityScore₄ : ℚ :=
    if 2000 ≤ capabilities.maxPromptLength then qualityScore₃ + 1 / 10 else qualityScore₃
  let score₂ : ℚ := score₁ + min qualityScore₄ 1 * config.qualityWeight
  let speedScore : ℚ :=
    match capabilities.name with
    | some .stableDiffusion => 6 / 10
    | some .dalleE3 => 8 / 10
    | some .imagen4 => 7 / 10
    | none => 1 / 2
  let score₃ : ℚ := score₂ + speedScore * config.speedWeight
  let score₄ : ℚ := score₃ + config.priority * (1 / 10)
  let healthLookup : Option Bool :=
    match capabilities.name with
    | some n => healthStatus n
    | none => none
  let score₅ : ℚ := if healthLookup = some true then score₄ else score₄ * (1 / 2)
  min score₅ 1

/-- `ProviderManager.generateSelectionReason` (lines 278-283). -/
def generateSelectionReason (score : ℚ) (cost : CostEstimate)
    (capabilities : ProviderCapabilities) : String :=
  if 8 / 10 < score then "Optimal cost/quality balance"
  else if cost.costPerImage < 5 / 100 then "Best cost efficiency"
  else if 1024 ≤ capabilities.maxImageSizeWidth then "High quality capabilities"
  else "Available and suitable"

/-- One entry of the candidate array built by `evaluateProviders`. -/
structure Candidate where
  provider : ImageProvider
  score : ℚ
  reason : String
  estimatedCost : ℚ
deriving DecidableEq, Repr

/-- `ProviderManager.evaluateProviders` (lines 201-235): walk the registered
providers in map-insertion order, keep those that are available and validate
the request, and score each. -/
def evaluateProviders (st : ManagerState) : List Candidate :=
  allProviders.filterMap (fun providerName =>
    match st.providers providerName with
    | none => none
    | some provider =>
      if isProviderAvailable st providerName = false then none
      else if provider.validationValid = false then none
      else
        let capabilities := provider.capabilities
        let costEstimate := provider.estimateCost
        let config := st.config providerName
        let score := calculateProviderScore st.healthStatus capabilities costEstimate config
        some ⟨providerName, score,
          generateSelectionReason score costEstimate capabilities,
          costEstimate.totalCost⟩)

/-- The comparator `(a, b) => b.score - a.score` used on the candidate array:
descending by score.  JS `Array.prototype.sort` is stable, which
`List.insertionSort` with this relation reproduces. -/
def scoreDescOrder (a b : Candidate) : Prop :=
  b.score ≤ a.score

instance : DecidableRel scoreDescOrder :=
  fun a b => inferInstanceAs (Decidable (b.score ≤ a.score))

/-- The auto-selection branch of `ProviderManager.selectProvider` (lines
182-198): score the candidates, fail when none, else stably sort descending
by score and take the first (the emptiness check of the source is on the
unsorted array, which has the same length as the sorted one). -/
def selectProviderAuto (st : ManagerState) : Except JsError ProviderSelection :=
  let candidates := evaluateProviders st
  match candidates.insertionSort scoreDescOrder with
  | [] => .error ⟨"No suitable providers available".data, none⟩
  | best :: _ => .ok ⟨best.provider, best.reason, best.estimatedCost, best.score⟩

/-- `ProviderManager.selectProvider` (lines 165-199): an explicit, available,
validating provider is returned outright with confidence 1.0; otherwise fall
through to auto-selection. -/
def selectProvider (st : ManagerState) (params : UnifiedImageParams) :
    Except JsError ProviderSelection :=
  match params.provider with
  | some p =>
    if isProviderAvailable st p then
      match st.providers p with
      | some provider =>
        if provider.validationValid then
          .ok ⟨p, "User specified", provider.estimateCost.totalCost, 1⟩
        else selectProviderAuto st
      | none => selectProviderAuto st
    else selectProviderAuto st
  | none => selectProviderAuto st

/-- The comparator `(a, b) => configB.priority - configA.priority` of
`getFallbackProviders`: descending by configured priority. -/
def priorityDescOrder (st : ManagerState) (a b : ImageProvider) : Prop :=
  (st.config b).priority ≤ (st.config a).priority

instance (st : ManagerState) : DecidableRel (priorityDescOrder st) :=
  fun a b => inferInstanceAs (Decidable ((st.config b).priority ≤ (st.config a).priority))

/-- `ProviderManager.getFallbackProviders` (lines 329-338): all registered
providers except the excluded one, stably sorted by descending configured
priority. -/
def getFallbackProviders (st : ManagerState) (excludeProvider : ImageProvider) :
    List ImageProvider :=
  (allProviders.filter
      (fun p => !(p == excludeProvider) && (st.providers p).isSome)).insertionSort
    (priorityDescOrder st)

deriving instance DecidableEq for Except

/-- One adapter `generateImage` call made during a request, with its outcome. -/
structure Attempt where
  provider : ImageProvider
  outcome : Except JsError ImageResult
deriving DecidableEq, Repr

/-- The message of the aggregated error thrown when every provider failed:
`All providers failed. Last error: ${lastError?.message}`. -/
def allProvidersFailedMessage (lastError : JsError) : List Char :=
  "All providers failed. Last error: ".data ++ lastError.message

/-- The fallback loop of `ProviderManager.generateWithFallback` (lines
304-327): walk the fallback names; skip (without touching `lastError`) any
that is unregistered, unavailable, or does not validate; return the first
success; remember the error of each failed attempt; after the list is
exhausted throw the aggregated error built from the last attempt error.
The second component records the attempts actually issued. -/
def tryFallbackProviders (st : ManagerState) :
    List ImageProvider → JsError → Except JsError ImageResult × List Attempt
  | [], lastError => (.error ⟨allProvidersFailedMessage lastError, none⟩, [])
  | fallbackName :: rest, lastError =>
    match st.providers fallbackName with
    | none => tryFallbackProviders st rest lastError
    | some provider =>
      if isProviderAvailable st fallbackName = false then
        tryFallbackProviders st rest lastError
      else if provider.validationValid = false then
        tryFallbackProviders st rest lastError
      else
        match provider.generate with
        | .ok result => (.ok result, [⟨fallbackName, .ok result⟩])
        | .error e =>
          let next := tryFallbackProviders st rest e
          (next.1, ⟨fallbackName, .error e⟩ :: next.2)

/-- `ProviderManager.generateWithFallback` (lines 285-327): try the primary
provider (whose registered name is `primaryName = primaryProvider.getName()`),
then on failure walk the fallback chain.  The local `maxRetries = 2` of the
source is never read and is omitted. -/
def generateWithFallback (st : ManagerState) (primaryProvider : AdapterBehavior)
    (primaryName : ImageProvider) : Except JsError ImageResult × List Attempt :=
  match primaryProvider.generate with
  | .ok result => (.ok result, [⟨primaryName, .ok result⟩])
  | .error e =>
    let next := tryFallbackProviders st (getFallbackProviders st primaryName) e
    (next.1, ⟨primaryName, .error e⟩ :: next.2)

end ProviderManager

/-- `CacheService.set` (`redis.ts` lines 79-89): run the underlying redis
`setEx`, catch anything it throws, and return whether it succeeded.  The
call never propagates an error to its caller. -/
def CacheService.set (redisSetEx : Except JsError Unit) : Bool :=
  match redisSetEx with
  | .ok _ => true
  | .error _ => false

namespace ProviderManager

/-- One metric object written by `recordSuccess` / `recordFailure`:
`provider` (`none` models the literal string used when no provider name is
known), the success flag, the cost when successful, and the boolean returned
by the cache write (`false` when the cache write failed).  The wall-clock
`duration` and `timestamp` fields are not modelled. -/
structure MetricEvent where
  provider : Option ImageProvider
  success : Bool
  cost : Option ℚ
  stored : Bool
deriving DecidableEq, Repr

/-- `ProviderManager.recordSuccess` (lines 380-390). -/
def recordSuccess (provider : ImageProvider) (cost : ℚ)
    (redisSetEx : Except JsError Unit) : MetricEvent :=
  ⟨some provider, true, some cost, CacheService.set redisSetEx⟩

/-- `ProviderManager.recordFailure` (lines 392-401); the provider argument is
`params.provider || 'unknown'` at the call site. -/
def recordFailure (provider : Option ImageProvider)
    (redisSetEx : Except JsError Unit) : MetricEvent :=
  ⟨provider, false, none, CacheService.set redisSetEx⟩

/-- The printable provider name, for error-message interpolation. -/
def providerNameChars : ImageProvider → List Char
  | .dalleE3 => "dalleE3".data
  | .imagen4 => "imagen4".data
  | .stableDiffusion => "stableDiffusion".data

/-- `ProviderManager.generateImage` (lines 119-163): select a provider, run
the fallback chain, and record exactly one metric event for the request —
a success event naming the originally selected provider on success, a
failure event naming the requested provider (or unknown) on failure.
`redisSetEx` is the outcome of the underlying cache write used for the
metric.  Returns the request outcome, the adapter attempts issued, and the
metric events recorded. -/
def generateImage (st : ManagerState) (params : UnifiedImageParams)
    (redisSetEx : Except JsError Unit) :
    Except JsError ImageResult × List Attempt × List MetricEvent :=
  match selectProvider st params with
  | .error e => (.error e, [], [recordFailure params.provider redisSetEx])
  | .ok selection =>
    match st.providers selection.provider with
    | none =>
      (.error ⟨"Provider ".data ++ providerNameChars selection.provider ++
          " not available".data, none⟩,
        [], [recordFailure params.provider redisSetEx])
    | some provider =>
      match generateWithFallback st provider selection.provider with
      | (.ok result, attempts) =>
        (.ok result, attempts, [recordSuccess selection.provider result.cost redisSetEx])
      | (.error e, attempts) =>
        (.error e, attempts, [recordFailure params.provider redisSetEx])

end ProviderManager

/-! ## Concrete constants of the repository

The per-provider runtime configs of `initializeDefaultConfig` and the
capability records returned by the three `getCapabilities()`
implementations.  None of the capability records carries a `name` field. -/

/-- DALL-E config (`initializeDefaultConfig`): priority 2, weights
0.3/0.5/0.2. -/
def dalleE3Config : ProviderConfig :=
  ⟨true, 2, 3, 300000, 3 / 10, 5 / 10, 2 / 10⟩

/-- Imagen config (`initializeDefaultConfig`): priority 1, weights
0.4/0.4/0.2. -/
def imagen4Config : ProviderConfig :=
  ⟨true, 1, 3, 300000, 4 / 10, 4 / 10, 2 / 10⟩

/-- Stable Diffusion config (`initializeDefaultConfig`): priority 3, weights
0.6/0.3/0.1. -/
def stableDiffusionConfig : ProviderConfig :=
  ⟨true, 3, 3, 300000, 6 / 10, 3 / 10, 1 / 10⟩

/-- The config map as initialized by `initializeDefaultConfig`. -/
def initialConfig : ImageProvider → ProviderConfig
  | .dalleE3 => dalleE3Config
  | .imagen4 => imagen4Config
  | .stableDiffusion => stableDiffusionConfig

/-- `DalleProvider.getCapabilities()`. -/
def dalleCapabilities : ProviderCapabilities :=
  ⟨1792, 1792, ["1024x1024", "1024x1792", "1792x1024"], ["png"], 4000,
    false, true, 1, 4 / 100, none⟩

/-- `ImagenProvider.getCapabilities()`. -/
def imagenCapabilities : ProviderCapabilities :=
  ⟨1536, 1536, ["1:1", "16:9", "9:16", "4:3", "3:4"], ["png", "jpeg"], 2048,
    true, false, 4, 3 / 100, none⟩

/-- `StableDiffusionProvider.getCapabilities()`. -/
def stableDiffusionCapabilities : ProviderCapabilities :=
  ⟨2048, 2048, ["512x512", "768x768", "1024x1024", "1536x1536", "2048x2048"],
    ["png"], 2000, true, true, 10, 2 / 100, none⟩

/-! ## Helper lemmas -/

theorem roundTo64_bounds (v : Int) (h₁ : 256 ≤ v) (h₂ : v ≤ 2048) :
    256 ≤ BaseImageProvider.roundTo64 v ∧ BaseImageProvider.roundTo64 v ≤ 2048 ∧
      (64 : Int) ∣ BaseImageProvider.roundTo64 v := by
  unfold BaseImageProvider.roundTo64 BaseImageProvider.jsRound
  have hq₁ : (256 : ℚ) ≤ (v : ℚ) := by exact_mod_cast h₁
  have hq₂ : (v : ℚ) ≤ 2048 := by exact_mod_cast h₂
  have h4 : (4 : Int) ≤ Int.floor ((v : ℚ) / 64 + 1 / 2) := by
    rw [Int.le_floor]
    push_cast
    linarith
  have h32 : Int.floor ((v : ℚ) / 64 + 1 / 2) ≤ 32 := by
    have hlt : Int.floor ((v : ℚ) / 64 + 1 / 2) < 33 := by
      rw [Int.floor_lt]
      push_cast
      linarith
    omega
  exact ⟨by linarith, by linarith, dvd_mul_left 64 _⟩

theorem lastIndexOf_lt_length (c : Char) (s : List Char) :
    BaseImageProvider.lastIndexOf c s < (s.length : Int) := by
  induction s with
  | nil => simp [BaseImageProvider.lastIndexOf]
  | cons a rest ih =>
    simp only [BaseImageProvider.lastIndexOf, List.length_cons]
    split_ifs <;> push_cast <;> omega

theorem lastIndexOf_getElem (c : Char) (s : List Char)
    (h : 0 ≤ BaseImageProvider.lastIndexOf c s) :
    s[(BaseImageProvider.lastIndexOf c s).toNat]? = some c := by
  induction s with
  | nil => simp [BaseImageProvider.lastIndexOf] at h
  | cons a rest ih =>
    simp only [BaseImageProvider.lastIndexOf] at h ⊢
    by_cases h₁ : 0 ≤ BaseImageProvider.lastIndexOf c rest
    · rw [if_pos h₁] at h ⊢
      have ht : (BaseImageProvider.lastIndexOf c rest + 1).toNat =
          (BaseImageProvider.lastIndexOf c rest).toNat + 1 := by omega
      rw [ht, List.getElem?_cons_succ]
      exact ih h₁
    · rw [if_neg h₁] at h ⊢
      by_cases h₂ : a = c
      · simp [h₂]
      · rw [if_neg h₂] at h
        omega

/-! ## C10: size standardization -/

/-- C10: for every input (absent dimensions included) `standardizeImageSize`
returns a width and a height that are multiples of 64 within 256..2048,
defaulting to 1024 when a dimension is unspecified, and 900×900 yields
896×896. -/
theorem standardizeImageSize_spec (width height : Option Int) :
    (256 ≤ (BaseImageProvider.standardizeImageSize width height).1 ∧
      (BaseImageProvider.standardizeImageSize width height).1 ≤ 2048 ∧
      (64 : Int) ∣ (BaseImageProvider.standardizeImageSize width height).1) ∧
    (256 ≤ (BaseImageProvider.standardizeImageSize width height).2 ∧
      (BaseImageProvider.standardizeImageSize width height).2 ≤ 2048 ∧
      (64 : Int) ∣ (BaseImageProvider.standardizeImageSize width height).2) ∧
    (width = none → (BaseImageProvider.standardizeImageSize width height).1 = 1024) ∧
    (height = none → (BaseImageProvider.standardizeImageSize width height).2 = 1024) ∧
    BaseImageProvider.standardizeImageSize (some 900) (some 900) = (896, 896) := by
  have hdim : ∀ r : Int,
      (r = 1024 ∨ ∃ w : Int, r = BaseImageProvider.roundTo64 (max 256 (min 2048 w))) →
      256 ≤ r ∧ r ≤ 2048 ∧ (64 : Int) ∣ r := by
    rintro r (rfl | ⟨w, rfl⟩)
    · exact ⟨by norm_num, by norm_num, by norm_num⟩
    · exact roundTo64_bounds _ (le_max_left _ _) (max_le (by norm_num) (min_le_left _ _))
  have hshape : ∀ d other : Option Int,
      (BaseImageProvider.standardizeImageSize d other).1 = 1024 ∨
        ∃ w : Int, (BaseImageProvider.standardizeImageSize d other).1 =
          BaseImageProvider.roundTo64 (max 256 (min 2048 w)) := by
    intro d other
    cases d with
    | none => exact Or.inl rfl
    | some w =>
      by_cases hw : w = 0
      · exact Or.inl (by simp [BaseImageProvider.standardizeImageSize, hw])
      · exact Or.inr ⟨w, by simp [BaseImageProvider.standardizeImageSize, hw]⟩
  have hshape₂ : ∀ d other : Option Int,
      (BaseImageProvider.standardizeImageSize other d).2 = 1024 ∨
        ∃ w : Int, (BaseImageProvider.standardizeImageSize other d).2 =
          BaseImageProvider.roundTo64 (max 256 (min 2048 w)) := by
    intro d other
    cases d with
    | none => exact Or.inl rfl
    | some w =>
      by_cases hw : w = 0
      · exact Or.inl (by simp [BaseImageProvider.standardizeImageSize, hw])
      · exact Or.inr ⟨w, by simp [BaseImageProvider.standardizeImageSize, hw]⟩
  have h900 : BaseImageProvider.roundTo64 900 = 896 := by
    unfold BaseImageProvider.roundTo64 BaseImageProvider.jsRound
    have hx : ((900 : Int) : ℚ) / 64 + 1 / 2 = 233 / 16 := by norm_num
    rw [hx]
    have hf : Int.floor ((233 : ℚ) / 16) = 14 := by
      rw [Int.floor_eq_iff]
      constructor <;> norm_num
    rw [hf]
    norm_num
  refine ⟨hdim _ (hshape width height), hdim _ (hshape₂ height width), ?_, ?_, ?_⟩
  · intro h
    subst h
    rfl
  · intro h
    subst h
    rfl
  · simp [BaseImageProvider.standardizeImageSize, h900]

theorem standardizeImageSize_spec_witness :
    (BaseImageProvider.standardizeImageSize none none).1 = 1024 ∧
    (BaseImageProvider.standardizeImageSize none none).2 = 1024 ∧
    BaseImageProvider.standardizeImageSize (some 900) (some 900) = (896, 896) :=
  ⟨(standardizeImageSize_spec none none).2.2.1 rfl,
    (standardizeImageSize_spec none none).2.2.2.1 rfl,
    (standardizeImageSize_spec (some 900) (some 900)).2.2.2.2⟩

/-! ## C8: prompt truncation -/

/-- Modelled from the spec claim wording (C8), not from the source, for
comparison against `truncatePrompt`: the result is a prefix of the prompt, of
length at most the limit, and the cut never splits a word in the middle —
either nothing was cut, or the character of the prompt right after the cut is
a space (a word boundary). -/
def truncationNeverSplitsWord (prompt : List Char) (maxLength : Nat)
    (result : List Char) : Prop :=
  (∃ n, result = prompt.take n) ∧ result.length ≤ maxLength ∧
    (result = prompt ∨ prompt[result.length]? = some ' ')

/-- C8 counterexample: on a prompt with no space, `truncatePrompt` cuts
mid-word; the claimed word-boundary property fails at prompt "aaaa" with
limit 3, where the code returns "aaa" but the next prompt character is not a
space. -/
theorem truncatePrompt_counterexample :
    BaseImageProvider.truncatePrompt "aaaa".data 3 = "aaa".data ∧
    ¬ truncationNeverSplitsWord "aaaa".data 3
        (BaseImageProvider.truncatePrompt "aaaa".data 3) := by
  constructor
  · decide
  · intro h
    obtain ⟨-, -, hb⟩ := h
    revert hb
    decide

/-- C8 amended: prompts at or under the limit are returned unchanged; a
longer prompt yields a prefix of length at most the limit; when the first
`maxLength` characters contain a space at a positive index the cut is at the
last such space (so the following prompt character is a space and no word is
split); otherwise the result is the plain `maxLength`-character prefix,
which may split a word. -/
theorem truncatePrompt_spec (prompt : List Char) (maxLength : Nat) :
    (prompt.length ≤ maxLength →
      BaseImageProvider.truncatePrompt prompt maxLength = prompt) ∧
    (maxLength < prompt.length →
      (BaseImageProvider.truncatePrompt prompt maxLength).length ≤ maxLength ∧
      (∃ n, BaseImageProvider.truncatePrompt prompt maxLength = prompt.take n) ∧
      (0 < BaseImageProvider.lastIndexOf ' ' (prompt.take maxLength) →
        BaseImageProvider.truncatePrompt prompt maxLength =
          prompt.take (BaseImageProvider.lastIndexOf ' ' (prompt.take maxLength)).toNat ∧
        prompt[(BaseImageProvider.lastIndexOf ' '
          (prompt.take maxLength)).toNat]? = some ' ') ∧
      (BaseImageProvider.lastIndexOf ' ' (prompt.take maxLength) ≤ 0 →
        BaseImageProvider.truncatePrompt prompt maxLength = prompt.take maxLength)) := by
  constructor
  · intro h
    simp [BaseImageProvider.truncatePrompt, h]
  · intro h
    have hnle : ¬ prompt.length ≤ maxLength := by omega
    have hlen : (prompt.take maxLength).length = maxLength := by
      rw [List.length_take]
      omega
    by_cases hsp : 0 < BaseImageProvider.lastIndexOf ' ' (prompt.take maxLength)
    · have hidx : BaseImageProvider.lastIndexOf ' ' (prompt.take maxLength) <
          (maxLength : Int) := by
        have := lastIndexOf_lt_length ' ' (prompt.take maxLength)
        rwa [hlen] at this
      have hidxn : (BaseImageProvider.lastIndexOf ' ' (prompt.take maxLength)).toNat <
          maxLength := by omega
      have heq : BaseImageProvider.truncatePrompt prompt maxLength =
          (prompt.take maxLength).take
            (BaseImageProvider.lastIndexOf ' ' (prompt.take maxLength)).toNat := by
        simp [BaseImageProvider.truncatePrompt, hnle, hsp]
      have htake : (prompt.take maxLength).take
          (BaseImageProvider.lastIndexOf ' ' (prompt.take maxLength)).toNat =
          prompt.take (BaseImageProvider.lastIndexOf ' ' (prompt.take maxLength)).toNat := by
        rw [List.take_take]
        congr 1
        omega
      refine ⟨?_, ⟨_, heq.trans htake⟩, ?_, ?_⟩
      · rw [heq, htake, List.length_take]
        omega
      · intro _
        refine ⟨heq.trans htake, ?_⟩
        have hget := lastIndexOf_getElem ' ' (prompt.take maxLength) (le_of_lt hsp)
        rwa [List.getElem?_take_of_lt hidxn] at hget
      · intro hle
        omega
    · have hle : BaseImageProvider.lastIndexOf ' ' (prompt.take maxLength) ≤ 0 := by omega
      have heq : BaseImageProvider.truncatePrompt prompt maxLength = prompt.take maxLength := by
        simp [BaseImageProvider.truncatePrompt, hnle, hsp]
      refine ⟨?_, ⟨maxLength, heq⟩, ?_, fun _ => heq⟩
      · rw [heq, List.length_take]
        omega
      · intro hpos
        omega

theorem truncatePrompt_spec_witness :
    BaseImageProvider.truncatePrompt "one two three".data 9 = "one two".data ∧
    BaseImageProvider.truncatePrompt "ok".data 9 = "ok".data := by
  have h₁ := (truncatePrompt_spec "one two three".data 9).2 (by decide)
  have h₂ := (truncatePrompt_spec "ok".data 9).1 (by decide)
  refine ⟨?_, h₂⟩
  have h₃ := (h₁.2.2.1 (by decide)).1
  rw [h₃]
  decide

/-! ## C1: the health penalty of the scorer -/

/-- A health map marking every provider healthy. -/
def healthAllTrue : ImageProvider → Option Bool :=
  fun _ => some true

/-- A health map marking DALL-E unhealthy and the others healthy. -/
def healthDalleDown : ImageProvider → Option Bool :=
  fun p => match p with
  | .dalleE3 => some false
  | _ => some true

/-- `DalleProvider.estimateCost` for a standard 1024×1024 single image:
0.04 USD. -/
def dalleStandardCost : CostEstimate :=
  ⟨4 / 100, 4 / 100⟩

/-- The DALL-E adapter responding successfully to a standard request. -/
def dalleBehavior : AdapterBehavior :=
  ⟨true, .ok ⟨.dalleE3, 4 / 100⟩, dalleStandardCost, dalleCapabilities⟩

/-- A manager state with only DALL-E registered and enabled, DALL-E cached
unhealthy. -/
def stDalleUnhealthy : ManagerState :=
  ⟨fun p => match p with
    | .dalleE3 => some dalleBehavior
    | _ => none,
    initialConfig, healthDalleDown⟩

/-- C1: the claimed exact halving of an unhealthy adapter's score does not
hold on the code.  `calculateProviderScore` looks up the health map under
`capabilities.name`, a field no capabilities record carries, so the lookup
misses and the ×0.5 penalty is applied to healthy and unhealthy candidates
alike: the two scores are equal (0.495 for DALL-E's real inputs), not in a
2:1 ratio.  Moreover an adapter marked unhealthy never reaches the scorer at
all: `evaluateProviders` filters it out via `isProviderAvailable`. -/
theorem calculateProviderScore_health_penalty_bug :
    ProviderManager.calculateProviderScore healthAllTrue dalleCapabilities
        dalleStandardCost dalleE3Config =
      ProviderManager.calculateProviderScore healthDalleDown dalleCapabilities
        dalleStandardCost dalleE3Config ∧
    ProviderManager.calculateProviderScore healthAllTrue dalleCapabilities
        dalleStandardCost dalleE3Config = 99 / 200 ∧
    ProviderManager.calculateProviderScore healthDalleDown dalleCapabilities
        dalleStandardCost dalleE3Config ≠
      (1 / 2) * ProviderManager.calculateProviderScore healthAllTrue dalleCapabilities
        dalleStandardCost dalleE3Config ∧
    ProviderManager.evaluateProviders stDalleUnhealthy = [] := by
  have h₂ : ProviderManager.calculateProviderScore healthAllTrue dalleCapabilities
      dalleStandardCost dalleE3Config = 99 / 200 := by
    norm_num [ProviderManager.calculateProviderScore, dalleCapabilities,
      dalleStandardCost, dalleE3Config, healthAllTrue, max_def, min_def]
    norm_num [show ((none : Option Bool) = some true) = False by simp]
  refine ⟨rfl, h₂, ?_, ?_⟩
  · rw [h₂]
    have h₃ : ProviderManager.calculateProviderScore healthDalleDown dalleCapabilities
        dalleStandardCost dalleE3Config = 99 / 200 := h₂
    rw [h₃]
    norm_num
  · decide

/-! ## C7: score is monotone in estimated cost -/

/-- C7: decreasing a candidate's estimated per-image cost, holding the
capabilities, the config (with its nonnegative cost weight, as in all three
shipped configs) and the health map fixed, never decreases the final score. -/
theorem calculateProviderScore_cost_monotone
    (healthStatus : ImageProvider → Option Bool) (capabilities : ProviderCapabilities)
    (config : ProviderConfig) (c₁ c₂ : CostEstimate)
    (hw : 0 ≤ config.costWeight) (hle : c₂.costPerImage ≤ c₁.costPerImage) :
    ProviderManager.calculateProviderScore healthStatus capabilities c₁ config ≤
      ProviderManager.calculateProviderScore healthStatus capabilities c₂ config := by
  unfold ProviderManager.calculateProviderScore
  have hcs : max 0 ((20 / 100 - c₁.costPerImage) / (20 / 100)) ≤
      max 0 ((20 / 100 - c₂.costPerImage) / (20 / 100)) := by
    apply max_le_max le_rfl
    apply div_le_div_of_nonneg_right _ (by norm_num)
    linarith
  apply min_le_min _ le_rfl
  have hbase : max 0 ((20 / 100 - c₁.costPerImage) / (20 / 100)) * config.costWeight ≤
      max 0 ((20 / 100 - c₂.costPerImage) / (20 / 100)) * config.costWeight :=
    mul_le_mul_of_nonneg_right hcs hw
  split
  · linarith
  · nlinarith

theorem calculateProviderScore_cost_monotone_witness :
    (0 : ℚ) ≤ dalleE3Config.costWeight ∧
    (⟨3 / 100, 3 / 100⟩ : CostEstimate).costPerImage ≤ dalleStandardCost.costPerImage ∧
    ProviderManager.calculateProviderScore healthAllTrue dalleCapabilities
        dalleStandardCost dalleE3Config ≤
      ProviderManager.calculateProviderScore healthAllTrue dalleCapabilities
        ⟨3 / 100, 3 / 100⟩ dalleE3Config :=
  ⟨by norm_num [dalleE3Config], by norm_num [dalleStandardCost],
    calculateProviderScore_cost_monotone healthAllTrue dalleCapabilities dalleE3Config
      dalleStandardCost ⟨3 / 100, 3 / 100⟩ (by norm_num [dalleE3Config])
      (by norm_num [dalleStandardCost])⟩

/-! ## C5: retry policy -/

theorem mapError_429 (e : JsError) (rah : Option Int) (dmsg : Option (List Char))
    (hresp : e.response = some ⟨429, rah, dmsg⟩) :
    BaseImageProvider.mapError e =
      ⟨"RATE_LIMIT_EXCEEDED", "Rate limit exceeded".data, true, some (rah.getD 60)⟩ := by
  simp [BaseImageProvider.mapError, hresp]

theorem mapError_5xx (e : JsError) (s : Int) (rah : Option Int) (dmsg : Option (List Char))
    (hs : 500 ≤ s) (hresp : e.response = some ⟨s, rah, dmsg⟩) :
    BaseImageProvider.mapError e =
      ⟨"SERVER_ERROR", "Provider server error".data, true, none⟩ := by
  have h429 : s ≠ 429 := by omega
  simp [BaseImageProvider.mapError, hresp, h429, hs]

theorem mapError_400 (e : JsError) (rah : Option Int) (dmsg : Option (List Char))
    (hresp : e.response = some ⟨400, rah, dmsg⟩) :
    BaseImageProvider.mapError e =
      ⟨"INVALID_REQUEST", dmsg.getD "Invalid request parameters".data, false, none⟩ := by
  norm_num [BaseImageProvider.mapError, hresp]

theorem retryGo_stop {α : Type} (op : Nat → Except JsError α) (maxRetries : Nat)
    (base : ℚ) (attempt fuel : Nat) (e : JsError) (hop : op attempt = .error e)
    (h : (BaseImageProvider.mapError e).retryable = false ∨ attempt = maxRetries) :
    BaseImageProvider.retryGo op maxRetries base attempt (fuel + 1) = (.error e, []) := by
  simp only [BaseImageProvider.retryGo, hop]
  rw [if_pos h]

theorem retryGo_step {α : Type} (op : Nat → Except JsError α) (maxRetries : Nat)
    (base : ℚ) (attempt fuel : Nat) (e : JsError) (hop : op attempt = .error e)
    (hret : (BaseImageProvider.mapError e).retryable = true)
    (hat : attempt ≠ maxRetries) :
    BaseImageProvider.retryGo op maxRetries base attempt (fuel + 1) =
      ((BaseImageProvider.retryGo op maxRetries base (attempt + 1) fuel).1,
        (match (BaseImageProvider.mapError e).retryAfter with
          | some ra => if ra = 0 then base * 2 ^ (attempt - 1) else (ra : ℚ) * 1000
          | none => base * 2 ^ (attempt - 1)) ::
        (BaseImageProvider.retryGo op maxRetries base (attempt + 1) fuel).2) := by
  simp only [BaseImageProvider.retryGo, hop]
  rw [if_neg]
  push_neg
  exact ⟨by simp [hret], hat⟩

theorem retryGo_all_fail {α : Type} (op : Nat → Except JsError α) (maxRetries : Nat)
    (base : ℚ) (eLast : JsError) (hlast : op maxRetries = .error eLast) :
    ∀ (f a : Nat), a + f = maxRetries → 1 ≤ a →
      (∀ b, a ≤ b → b < maxRetries →
        ∃ e, op b = .error e ∧ (BaseImageProvider.mapError e).retryable = true) →
      (BaseImageProvider.retryGo op maxRetries base a (f + 1)).1 = .error eLast := by
  intro f
  induction f with
  | zero =>
    intro a ha h1 hfail
    have haeq : a = maxRetries := by omega
    subst haeq
    rw [retryGo_stop op a base a 0 eLast hlast (Or.inr rfl)]
  | succ f ih =>
    intro a ha h1 hfail
    have hlt : a < maxRetries := by omega
    obtain ⟨e, he, hret⟩ := hfail a le_rfl hlt
    rw [retryGo_step op maxRetries base a (f + 1) e he hret (by omega)]
    exact ih (a + 1) (by omega) (by omega) (fun b hb hb2 => hfail b (by omega) hb2)

/-- C5: the retry policy of `retryWithBackoff`.  (i) A first-attempt failure
classified from HTTP 429 carrying a retry-after hint of `ra` seconds makes
the loop wait at least `ra` seconds (`ra * 1000` ms) before the next attempt.
(ii) A failure classified from HTTP 400 is rethrown at once: no retry, no
wait.  (iii) A retryable failure without a hint (HTTP 5xx) makes the loop
wait `base * 2 ^ (attempt - 1)` ms.  (iv) When every attempt up to the budget
fails (earlier ones retryably), the error surfaced is exactly the last
underlying error. -/
theorem retryWithBackoff_policy {α : Type} :
    (∀ (op : Nat → Except JsError α) (maxRetries : Nat) (base : ℚ) (e : JsError)
        (ra : Int) (dmsg : Option (List Char)),
      op 1 = .error e → e.response = some ⟨429, some ra, dmsg⟩ → ra ≠ 0 →
      1 < maxRetries →
      ∃ d, (BaseImageProvider.retryWithBackoff op maxRetries base).2.head? = some d ∧
        (ra : ℚ) * 1000 ≤ d) ∧
    (∀ (op : Nat → Except JsError α) (maxRetries : Nat) (base : ℚ) (e : JsError)
        (rah : Option Int) (dmsg : Option (List Char)),
      1 ≤ maxRetries → op 1 = .error e → e.response = some ⟨400, rah, dmsg⟩ →
      BaseImageProvider.retryWithBackoff op maxRetries base = (.error e, [])) ∧
    (∀ (op : Nat → Except JsError α) (maxRetries : Nat) (base : ℚ) (e : JsError)
        (s : Int) (rah : Option Int) (dmsg : Option (List Char)) (attempt fuel : Nat),
      op attempt = .error e → e.response = some ⟨s, rah, dmsg⟩ → 500 ≤ s →
      rah = none → attempt ≠ maxRetries →
      (BaseImageProvider.retryGo op maxRetries base attempt (fuel + 1)).2.head? =
        some (base * 2 ^ (attempt - 1))) ∧
    (∀ (op : Nat → Except JsError α) (maxRetries : Nat) (base : ℚ) (eLast : JsError),
      1 ≤ maxRetries → op maxRetries = .error eLast →
      (∀ b, 1 ≤ b → b < maxRetries →
        ∃ e, op b = .error e ∧ (BaseImageProvider.mapError e).retryable = true) →
      (BaseImageProvider.retryWithBackoff op maxRetries base).1 = .error eLast) := by
  refine ⟨?_, ?_, ?_, ?_⟩
  · intro op maxRetries base e ra dmsg hop hresp hra0 hmr
    unfold BaseImageProvider.retryWithBackoff
    have hm : maxRetries = (maxRetries - 1) + 1 := by omega
    rw [hm, retryGo_step op ((maxRetries - 1) + 1) base 1 (maxRetries - 1) e hop
      (by rw [mapError_429 e (some ra) dmsg hresp]) (by omega)]
    rw [mapError_429 e (some ra) dmsg hresp]
    refine ⟨(ra : ℚ) * 1000, ?_, le_rfl⟩
    simp [Option.getD, hra0]
  · intro op maxRetries base e rah dmsg hmr hop hresp
    unfold BaseImageProvider.retryWithBackoff
    have hm : maxRetries = (maxRetries - 1) + 1 := by omega
    rw [hm, retryGo_stop op ((maxRetries - 1) + 1) base 1 (maxRetries - 1) e hop
      (Or.inl (by rw [mapError_400 e rah dmsg hresp]))]
  · intro op maxRetries base e s rah dmsg attempt fuel hop hresp hs hrah hat
    subst hrah
    rw [retryGo_step op maxRetries base attempt fuel e hop
      (by rw [mapError_5xx e s none dmsg hs hresp]) hat]
    rw [mapError_5xx e s none dmsg hs hresp]
    rfl
  · intro op maxRetries base eLast hmr hlast hfail
    unfold BaseImageProvider.retryWithBackoff
    have hm : maxRetries = (maxRetries - 1) + 1 := by omega
    nth_rewrite 2 [hm]
    exact retryGo_all_fail op maxRetries base eLast hlast (maxRetries - 1) 1
      (by omega) le_rfl (fun b hb hb2 => hfail b hb hb2)

/-- A thrown HTTP 429 with a retry-after hint of 7 seconds. -/
def e429 : JsError :=
  ⟨"rate limited".data, some ⟨429, some 7, none⟩⟩

/-- A thrown HTTP 400. -/
def e400 : JsError :=
  ⟨"bad request".data, some ⟨400, none, none⟩⟩

/-- A thrown HTTP 500. -/
def e500 : JsError :=
  ⟨"server error".data, some ⟨500, none, none⟩⟩

theorem retryWithBackoff_policy_witness :
    (∃ d, (BaseImageProvider.retryWithBackoff
        (fun _ => (Except.error e429 : Except JsError Unit)) 3 1000).2.head? = some d ∧
      ((7 : Int) : ℚ) * 1000 ≤ d) ∧
    BaseImageProvider.retryWithBackoff
        (fun _ => (Except.error e400 : Except JsError Unit)) 3 1000 =
      (Except.error e400, []) ∧
    (BaseImageProvider.retryGo
        (fun _ => (Except.error e500 : Except JsError Unit)) 3 1000 1 (1 + 1)).2.head? =
      some (1000 * 2 ^ (1 - 1 : Nat)) ∧
    (BaseImageProvider.retryWithBackoff
        (fun _ => (Except.error e500 : Except JsError Unit)) 3 1000).1 =
      Except.error e500 := by
  have hret500 : (BaseImageProvider.mapError e500).retryable = true := by
    rw [mapError_5xx e500 500 none none (by norm_num) rfl]
  refine ⟨?_, ?_, ?_, ?_⟩
  · exact retryWithBackoff_policy.1 (fun _ => Except.error e429) 3 1000 e429 7 none
      rfl rfl (by norm_num) (by norm_num)
  · exact retryWithBackoff_policy.2.1 (fun _ => Except.error e400) 3 1000 e400 none none
      (by norm_num) rfl rfl
  · exact retryWithBackoff_policy.2.2.1 (fun _ => Except.error e500) 3 1000 e500 500
      none none 1 1 rfl rfl (by norm_num) rfl (by norm_num)
  · exact retryWithBackoff_policy.2.2.2 (fun _ => Except.error e500) 3 1000 e500
      (by norm_num) rfl (fun b hb hb2 => ⟨e500, rfl, hret500⟩)

/-! ## Fallback-chain analysis (C2, C3, C4) -/

namespace ProviderManager

/-- The validation verdict of a registered provider (false when
unregistered). -/
def validatesFor (st : ManagerState) (p : ImageProvider) : Bool :=
  match st.providers p with
  | some a => a.validationValid
  | none => false

/-- Whether the fallback loop actually issues a call to `p`: available and
validating (the loop skips any other candidate). -/
def attemptedInFallback (st : ManagerState) (p : ImageProvider) : Bool :=
  isProviderAvailable st p && validatesFor st p

/-- The generate outcome of a registered provider (a placeholder error when
unregistered; never reached under `attemptedInFallback`). -/
def genOf (st : ManagerState) (p : ImageProvider) : Except JsError ImageResult :=
  match st.providers p with
  | some a => a.generate
  | none => .error ⟨"unregistered".data, none⟩

theorem tryFallback_filter (st : ManagerState) :
    ∀ (l : List ImageProvider) (e : JsError),
      tryFallbackProviders st l e =
        tryFallbackProviders st (l.filter (attemptedInFallback st)) e := by
  intro l
  induction l with
  | nil => intro e; rfl
  | cons p rest ih =>
    intro e
    by_cases hatt : attemptedInFallback st p = true
    · have hsome : ∃ a, st.providers p = some a ∧ a.validationValid = true := by
        unfold attemptedInFallback validatesFor at hatt
        rcases hreg : st.providers p with - | a
        · rw [hreg] at hatt
          simp at hatt
        · rw [hreg] at hatt
          simp at hatt
          exact ⟨a, rfl, hatt.2⟩
      obtain ⟨a, hreg, hvalid⟩ := hsome
      have havail : isProviderAvailable st p = true := by
        unfold attemptedInFallback at hatt
        simp at hatt
        exact hatt.1
      rw [List.filter_cons_of_pos hatt]
      simp only [tryFallbackProviders, hreg, havail, hvalid]
      norm_num
      rcases a.generate with e' | r
      · simp [ih]
      · simp
    · have hatt' : attemptedInFallback st p = false := by
        simpa using hatt
      rw [List.filter_cons_of_neg (by simp [hatt'])]
      rcases hreg : st.providers p with - | a
      · simp only [tryFallbackProviders, hreg]
        exact ih e
      · have hcases : isProviderAvailable st p = false ∨ a.validationValid = false := by
          unfold attemptedInFallback validatesFor at hatt'
          rw [hreg] at hatt'
          cases hav : isProviderAvailable st p
          · exact Or.inl rfl
          · right
            rw [hav] at hatt'
            simpa using hatt'
        rcases hcases with hc | hc
        · simp only [tryFallbackProviders, hreg, hc]
          norm_num
          exact ih e
        · simp only [tryFallbackProviders, hreg, hc]
          rcases hav : isProviderAvailable st p with - | -
          · norm_num
            exact ih e
          · norm_num
            exact ih e

theorem attempted_dest (st : ManagerState) (p : ImageProvider)
    (h : attemptedInFallback st p = true) :
    isProviderAvailable st p = true ∧
      ∃ a, st.providers p = some a ∧ a.validationValid = true := by
  unfold attemptedInFallback validatesFor at h
  rcases hreg : st.providers p with - | a
  · rw [hreg] at h
    simp at h
  · rw [hreg] at h
    simp at h
    exact ⟨h.1, a, rfl, h.2⟩

theorem tryFallback_success (st : ManagerState) :
    ∀ (l₁ : List ImageProvider) (b : ImageProvider) (l₂ : List ImageProvider)
      (e₀ : JsError) (r : ImageResult),
      (∀ p ∈ l₁, attemptedInFallback st p = true ∧ ∃ ep, genOf st p = .error ep) →
      attemptedInFallback st b = true → genOf st b = .ok r →
      (tryFallbackProviders st (l₁ ++ b :: l₂) e₀).1 = .ok r ∧
      (tryFallbackProviders st (l₁ ++ b :: l₂) e₀).2.map (fun a => a.provider) =
        l₁ ++ [b] := by
  intro l₁
  induction l₁ with
  | nil =>
    intro b l₂ e₀ r _ hb hbr
    obtain ⟨havail, a, hreg, hvalid⟩ := attempted_dest st b hb
    have hgen : a.generate = .ok r := by
      unfold genOf at hbr
      rwa [hreg] at hbr
    simp [tryFallbackProviders, hreg, havail, hvalid, hgen]
  | cons p l₁ ih =>
    intro b l₂ e₀ r hl hb hbr
    obtain ⟨hattp, ep, hep⟩ := hl p (by simp)
    obtain ⟨havail, a, hreg, hvalid⟩ := attempted_dest st p hattp
    have hgen : a.generate = .error ep := by
      unfold genOf at hep
      rwa [hreg] at hep
    have ihres := ih b l₂ ep r (fun q hq => hl q (by simp [hq])) hb hbr
    simp only [List.cons_append, tryFallbackProviders, hreg, havail, hvalid, hgen]
    norm_num
    exact ⟨ihres.1, by simp [ihres.2]⟩

theorem tryFallback_all_fail (st : ManagerState) :
    ∀ (l : List ImageProvider) (errs : List JsError) (e₀ : JsError),
      (∀ p ∈ l, attemptedInFallback st p = true) →
      l.map (genOf st) = errs.map Except.error →
      (tryFallbackProviders st l e₀).1 =
        .error ⟨allProvidersFailedMessage ((e₀ :: errs).getLast (by simp)), none⟩ := by
  intro l
  induction l with
  | nil =>
    intro errs e₀ _ hmap
    have herrs : errs = [] := by
      rcases errs with - | ⟨e, es⟩
      · rfl
      · simp at hmap
    subst herrs
    rfl
  | cons p rest ih =>
    intro errs e₀ hatt hmap
    rcases errs with - | ⟨ep, errs'⟩
    · simp at hmap
    · simp only [List.map_cons, List.cons.injEq] at hmap
      obtain ⟨hp, hrest⟩ := hmap
      obtain ⟨havail, a, hreg, hvalid⟩ := attempted_dest st p (hatt p (by simp))
      have hgen : a.generate = .error ep := by
        unfold genOf at hp
        rwa [hreg] at hp
      have ihres := ih errs' ep (fun q hq => hatt q (by simp [hq])) hrest
      simp only [tryFallbackProviders, hreg, havail, hvalid, hgen]
      norm_num
      rw [ihres]

theorem getFallbackProviders_sorted (st : ManagerState) (ex : ImageProvider) :
    List.Pairwise (priorityDescOrder st) (getFallbackProviders st ex) := by
  haveI : IsTotal ImageProvider (priorityDescOrder st) :=
    ⟨fun a b => le_total (st.config b).priority (st.config a).priority⟩
  haveI : IsTrans ImageProvider (priorityDescOrder st) :=
    ⟨fun a b c hab hbc => le_trans hbc hab⟩
  exact List.sorted_insertionSort (priorityDescOrder st) _

end ProviderManager

/-- C2: when the primary adapter's generate call fails, the orchestrator
walks exactly the registered fallback providers (the already-tried one
excluded) in descending configured-priority order, skipping — without
recording an attempt or an error — any that is unavailable or does not
re-validate; the first fallback that succeeds determines the overall result.
`l₁` enumerates the attempted-and-failing fallbacks that precede the first
succeeding one `b` in that order. -/
theorem generateWithFallback_chain (st : ManagerState) (primary : AdapterBehavior)
    (primaryName : ImageProvider) (e : JsError) (l₁ l₂ : List ImageProvider)
    (b : ImageProvider) (r : ImageResult)
    (hfail : primary.generate = .error e)
    (hsplit : (ProviderManager.getFallbackProviders st primaryName).filter
        (ProviderManager.attemptedInFallback st) = l₁ ++ b :: l₂)
    (hl₁ : ∀ p ∈ l₁, ∃ ep, ProviderManager.genOf st p = .error ep)
    (hb : ProviderManager.genOf st b = .ok r) :
    (ProviderManager.generateWithFallback st primary primaryName).1 = .ok r ∧
    (ProviderManager.generateWithFallback st primary primaryName).2.map
        (fun a => a.provider) = primaryName :: (l₁ ++ [b]) ∧
    List.Pairwise (ProviderManager.priorityDescOrder st)
      (ProviderManager.getFallbackProviders st primaryName) := by
  have hattb : ProviderManager.attemptedInFallback st b = true := by
    have hmem : b ∈ (ProviderManager.getFallbackProviders st primaryName).filter
        (ProviderManager.attemptedInFallback st) := by
      rw [hsplit]
      exact List.mem_append_right _ (List.mem_cons_self _ _)
    exact (List.mem_filter.mp hmem).2
  have hattl : ∀ p ∈ l₁, ProviderManager.attemptedInFallback st p = true := by
    intro p hp
    have hmem : p ∈ (ProviderManager.getFallbackProviders st primaryName).filter
        (ProviderManager.attemptedInFallback st) := by
      rw [hsplit]
      exact List.mem_append_left _ hp
    exact (List.mem_filter.mp hmem).2
  have hrun := ProviderManager.tryFallback_success st l₁ b l₂ e r
    (fun p hp => ⟨hattl p hp, hl₁ p hp⟩) hattb hb
  have hfb : ProviderManager.tryFallbackProviders st
      (ProviderManager.getFallbackProviders st primaryName) e =
      ProviderManager.tryFallbackProviders st (l₁ ++ b :: l₂) e := by
    rw [ProviderManager.tryFallback_filter st _ e, hsplit]
  refine ⟨?_, ?_, ProviderManager.getFallbackProviders_sorted st primaryName⟩
  · simp only [ProviderManager.generateWithFallback, hfail, hfb]
    exact hrun.1
  · simp only [ProviderManager.generateWithFallback, hfail, hfb]
    simp [hrun.2]

/-- The Stable Diffusion adapter failing with a concrete error. -/
def eSD : JsError :=
  ⟨"stability call failed".data, none⟩

/-- The Imagen adapter failing with a concrete error. -/
def eImagen : JsError :=
  ⟨"imagen call failed".data, none⟩

/-- Stable Diffusion adapter: validates, but its call fails. -/
def sdFails : AdapterBehavior :=
  ⟨true, .error eSD, ⟨2 / 100, 2 / 100⟩, stableDiffusionCapabilities⟩

/-- Imagen adapter: validates and succeeds. -/
def imagenOk : AdapterBehavior :=
  ⟨true, .ok ⟨.imagen4, 3 / 100⟩, ⟨3 / 100, 3 / 100⟩, imagenCapabilities⟩

/-- Imagen adapter: validates, but its call fails. -/
def imagenFails : AdapterBehavior :=
  ⟨true, .error eImagen, ⟨3 / 100, 3 / 100⟩, imagenCapabilities⟩

/-- Stable Diffusion (priority 3) failing and Imagen (priority 1)
succeeding, both enabled and healthy; DALL-E unregistered. -/
def stFallback : ManagerState :=
  ⟨fun p => match p with
    | .stableDiffusion => some sdFails
    | .imagen4 => some imagenOk
    | .dalleE3 => none,
    initialConfig, fun _ => some true⟩

/-- Same as `stFallback` but with Imagen failing too. -/
def stAllFail : ManagerState :=
  ⟨fun p => match p with
    | .stableDiffusion => some sdFails
    | .imagen4 => some imagenFails
    | .dalleE3 => none,
    initialConfig, fun _ => some true⟩

theorem generateWithFallback_chain_witness :
    (ProviderManager.generateWithFallback stFallback sdFails .stableDiffusion).1 =
      .ok ⟨.imagen4, 3 / 100⟩ ∧
    (ProviderManager.generateWithFallback stFallback sdFails .stableDiffusion).2.map
      (fun a => a.provider) = [.stableDiffusion, .imagen4] := by
  have h := generateWithFallback_chain stFallback sdFails .stableDiffusion eSD
    [] [] .imagen4 ⟨.imagen4, 3 / 100⟩ rfl (by decide) (by simp) rfl
  exact ⟨h.1, by simpa using h.2.1⟩

/-- C3: a request naming an explicit provider that is available (registered,
enabled, last-known-healthy) and validates is selected outright with
confidence 1.0 and the marker reason "User specified" — the scoring branch
(`selectProviderAuto`, whose reasons all differ from that marker) is not
consulted; and when that provider's call succeeds, exactly one adapter
generate call is issued, to that provider.  When the request has no explicit
provider, or the explicit choice is unavailable or invalid, selection goes
through the scorer (`selectProviderAuto`). -/
theorem selectProvider_explicit_bypass (st : ManagerState) (params : UnifiedImageParams)
    (p : ImageProvider) (beh : AdapterBehavior)
    (hp : params.provider = some p)
    (hav : ProviderManager.isProviderAvailable st p = true)
    (hbeh : st.providers p = some beh)
    (hvalid : beh.validationValid = true) :
    (ProviderManager.selectProvider st params =
      .ok ⟨p, "User specified", beh.estimateCost.totalCost, 1⟩) ∧
    (∀ r : ImageResult, beh.generate = .ok r →
      ∀ redisSetEx, (ProviderManager.generateImage st params redisSetEx).1 = .ok r ∧
        (ProviderManager.generateImage st params redisSetEx).2.1.map
          (fun a => a.provider) = [p]) ∧
    (∀ params₂ : UnifiedImageParams, params₂.provider = none →
      ProviderManager.selectProvider st params₂ = ProviderManager.selectProviderAuto st) ∧
    (∀ (params₂ : UnifiedImageParams) (q : ImageProvider), params₂.provider = some q →
      ProviderManager.isProviderAvailable st q = false →
      ProviderManager.selectProvider st params₂ = ProviderManager.selectProviderAuto st) ∧
    (∀ (params₂ : UnifiedImageParams) (q : ImageProvider) (behq : AdapterBehavior),
      params₂.provider = some q → st.providers q = some behq →
      behq.validationValid = false →
      ProviderManager.selectProvider st params₂ = ProviderManager.selectProviderAuto st) := by
  have hsel : ProviderManager.selectProvider st params =
      .ok ⟨p, "User specified", beh.estimateCost.totalCost, 1⟩ := by
    simp [ProviderManager.selectProvider, hp, hav, hbeh, hvalid]
  refine ⟨hsel, ?_, ?_, ?_, ?_⟩
  · intro r hr redisSetEx
    simp only [ProviderManager.generateImage, hsel, hbeh]
    simp [ProviderManager.generateWithFallback, hr]
  · intro params₂ hq
    simp [ProviderManager.selectProvider, hq]
  · intro params₂ q hq hunav
    simp [ProviderManager.selectProvider, hq, hunav]
  · intro params₂ q behq hq hbehq hinvalid
    by_cases havq : ProviderManager.isProviderAvailable st q = true
    · simp [ProviderManager.selectProvider, hq, havq, hbehq, hinvalid]
    · simp only [Bool.not_eq_true] at havq
      simp [ProviderManager.selectProvider, hq, havq]

/-- Imagen the only registered provider, healthy and succeeding. -/
def stImagenOnly : ManagerState :=
  ⟨fun p => match p with
    | .imagen4 => some imagenOk
    | _ => none,
    initialConfig, fun _ => some true⟩

/-- A request explicitly naming Imagen. -/
def paramsExplicitImagen : UnifiedImageParams :=
  ⟨"a red fox in the snow".data, some ImageProvider.imagen4⟩

theorem selectProvider_explicit_bypass_witness :
    ProviderManager.selectProvider stImagenOnly paramsExplicitImagen =
      .ok ⟨.imagen4, "User specified", 3 / 100, 1⟩ ∧
    (ProviderManager.generateImage stImagenOnly paramsExplicitImagen (.ok ())).1 =
      .ok ⟨.imagen4, 3 / 100⟩ ∧
    (ProviderManager.generateImage stImagenOnly paramsExplicitImagen (.ok ())).2.1.map
      (fun a => a.provider) = [.imagen4] := by
  have h := selectProvider_explicit_bypass stImagenOnly paramsExplicitImagen
    .imagen4 imagenOk rfl (by decide) rfl rfl
  have h₂ := h.2.1 ⟨.imagen4, 3 / 100⟩ rfl (.ok ())
  exact ⟨h.1, h₂.1, h₂.2⟩

/-- C4: when the primary fails and every attempted fallback fails too (the
attempted ones being exactly the available-and-validating entries of the
fallback list, here enumerated with their errors by `errs`), the whole
request fails with the single aggregated error whose message is the fixed
text followed by the message of the last underlying adapter error — in
particular that last message is a contiguous substring of the surfaced
message; earlier errors appear nowhere in the returned value. -/
theorem generateWithFallback_all_fail (st : ManagerState) (primary : AdapterBehavior)
    (primaryName : ImageProvider) (e₀ : JsError) (errs : List JsError)
    (hfail : primary.generate = .error e₀)
    (hmap : ((ProviderManager.getFallbackProviders st primaryName).filter
        (ProviderManager.attemptedInFallback st)).map (ProviderManager.genOf st) =
      errs.map Except.error) :
    (ProviderManager.generateWithFallback st primary primaryName).1 =
      .error ⟨ProviderManager.allProvidersFailedMessage ((e₀ :: errs).getLast (by simp)),
        none⟩ ∧
    ∃ pre suf, pre ++ ((e₀ :: errs).getLast (by simp)).message ++ suf =
      ProviderManager.allProvidersFailedMessage ((e₀ :: errs).getLast (by simp)) := by
  have hattl : ∀ p ∈ (ProviderManager.getFallbackProviders st primaryName).filter
      (ProviderManager.attemptedInFallback st),
      ProviderManager.attemptedInFallback st p = true :=
    fun p hp => (List.mem_filter.mp hp).2
  have hrun := ProviderManager.tryFallback_all_fail st
    ((ProviderManager.getFallbackProviders st primaryName).filter
      (ProviderManager.attemptedInFallback st)) errs e₀ hattl hmap
  constructor
  · simp only [ProviderManager.generateWithFallback, hfail,
      ProviderManager.tryFallback_filter st (ProviderManager.getFallbackProviders st primaryName) e₀]
    exact hrun
  · exact ⟨"All providers failed. Last error: ".data, [], by
      simp [ProviderManager.allProvidersFailedMessage]⟩

theorem generateWithFallback_all_fail_witness :
    (ProviderManager.generateWithFallback stAllFail sdFails .stableDiffusion).1 =
      .error ⟨ProviderManager.allProvidersFailedMessage eImagen, none⟩ ∧
    ∃ pre suf, pre ++ eImagen.message ++ suf =
      ProviderManager.allProvidersFailedMessage eImagen := by
  have h := generateWithFallback_all_fail stAllFail sdFails .stableDiffusion eSD
    [eImagen] rfl (by decide)
  exact h

/-! ## C6: auto-selection picks the maximal-score candidate, earliest on ties -/

theorem insertionSort_head_first_max :
    ∀ l : List ProviderManager.Candidate, l ≠ [] →
      ∃ (best : ProviderManager.Candidate) (l₁ l₂ : List ProviderManager.Candidate),
        (l.insertionSort ProviderManager.scoreDescOrder).head? = some best ∧
        l = l₁ ++ best :: l₂ ∧ (∀ d ∈ l₁, d.score < best.score) ∧
        ∀ d ∈ l, d.score ≤ best.score := by
  intro l
  induction l with
  | nil => intro h; exact absurd rfl h
  | cons x xs ih =>
    intro _
    rcases hxs : xs with - | ⟨y, ys⟩
    · exact ⟨x, [], [], by simp [List.insertionSort, List.orderedInsert], by simp,
        by simp, by simp⟩
    · obtain ⟨b, m₁, m₂, hhead, hsplit, hlt, hle⟩ := ih (by simp [hxs])

      obtain ⟨t, ht⟩ : ∃ t, xs.insertionSort ProviderManager.scoreDescOrder = b :: t := by
        rcases hs : xs.insertionSort ProviderManager.scoreDescOrder with - | ⟨z, zs⟩
        · rw [hs] at hhead
          simp at hhead
        · rw [hs] at hhead
          simp at hhead
          exact ⟨zs, by rw [hhead]⟩
      rw [← hxs]
      have hsort : (x :: xs).insertionSort ProviderManager.scoreDescOrder =
          (xs.insertionSort ProviderManager.scoreDescOrder).orderedInsert
            ProviderManager.scoreDescOrder x := rfl
      by_cases hcmp : ProviderManager.scoreDescOrder x b
      · refine ⟨x, [], xs, ?_, by simp, by simp, ?_⟩
        · rw [hsort, ht, List.orderedInsert_of_le _ _ hcmp]
          rfl
        · intro d hd
          rcases List.mem_cons.mp hd with rfl | hd
          · exact le_rfl
          · exact le_trans (hle d hd) hcmp
      · refine ⟨b, x :: m₁, m₂, ?_, by simp [hsplit], ?_, ?_⟩
        · rw [hsort, ht]
          unfold List.orderedInsert
          rw [if_neg hcmp]
          rfl
        · intro d hd
          rcases List.mem_cons.mp hd with rfl | hd
          · exact lt_of_not_le hcmp
          · exact hlt d hd
        · intro d hd
          rcases List.mem_cons.mp hd with rfl | hd
          · exact le_of_lt (lt_of_not_le hcmp)
          · exact hle d hd

/-- C6: for a request without an explicit provider and a nonempty candidate
set, the manager selects (with the candidate's own score as confidence) a
candidate whose score is greatest among all available, validating
candidates, and on ties the one earliest in evaluation order: every
candidate strictly before the selected one scores strictly lower. -/
theorem selectProvider_auto_best (st : ManagerState) (params : UnifiedImageParams)
    (hp : params.provider = none)
    (hne : ProviderManager.evaluateProviders st ≠ []) :
    ∃ best : ProviderManager.Candidate,
      ProviderManager.selectProvider st params =
        .ok ⟨best.provider, best.reason, best.estimatedCost, best.score⟩ ∧
      best ∈ ProviderManager.evaluateProviders st ∧
      (∀ d ∈ ProviderManager.evaluateProviders st, d.score ≤ best.score) ∧
      ∃ l₁ l₂, ProviderManager.evaluateProviders st = l₁ ++ best :: l₂ ∧
        ∀ d ∈ l₁, d.score < best.score := by
  obtain ⟨best, l₁, l₂, hhead, hsplit, hlt, hle⟩ :=
    insertionSort_head_first_max (ProviderManager.evaluateProviders st) hne
  obtain ⟨t, ht⟩ : ∃ t, (ProviderManager.evaluateProviders st).insertionSort
      ProviderManager.scoreDescOrder = best :: t := by
    rcases hs : (ProviderManager.evaluateProviders st).insertionSort
        ProviderManager.scoreDescOrder with - | ⟨z, zs⟩
    · rw [hs] at hhead
      simp at hhead
    · rw [hs] at hhead
      simp at hhead
      exact ⟨zs, by rw [hhead]⟩
  refine ⟨best, ?_, ?_, hle, l₁, l₂, hsplit, hlt⟩
  · simp [ProviderManager.selectProvider, hp, ProviderManager.selectProviderAuto, ht]
  · rw [hsplit]
    exact List.mem_append_right _ (List.mem_cons_self _ _)

/-- A request with no explicit provider. -/
def paramsAuto : UnifiedImageParams :=
  ⟨"a red fox in the snow".data, none⟩

theorem selectProvider_auto_best_witness :
    paramsAuto.provider = none ∧
    ProviderManager.evaluateProviders stFallback ≠ [] ∧
    ∃ best : ProviderManager.Candidate,
      ProviderManager.selectProvider stFallback paramsAuto =
        .ok ⟨best.provider, best.reason, best.estimatedCost, best.score⟩ ∧
      best ∈ ProviderManager.evaluateProviders stFallback ∧
      (∀ d ∈ ProviderManager.evaluateProviders stFallback, d.score ≤ best.score) ∧
      ∃ l₁ l₂, ProviderManager.evaluateProviders stFallback = l₁ ++ best :: l₂ ∧
        ∀ d ∈ l₁, d.score < best.score :=
  ⟨rfl, by decide, selectProvider_auto_best stFallback paramsAuto rfl (by decide)⟩

/-! ## C9: metric recording -/

/-- Whether an adapter call outcome is a success. -/
def exceptSucceeded : Except JsError ImageResult → Bool
  | .ok _ => true
  | .error _ => false

/-- Modelled from the spec claim wording (C9), not from the source, for
comparison against `generateImage`: every adapter attempt of the request has
a corresponding metric event carrying its provider and its success flag. -/
def everyAttemptRecorded (attempts : List ProviderManager.Attempt)
    (metrics : List ProviderManager.MetricEvent) : Prop :=
  ∀ a ∈ attempts, ∃ m ∈ metrics,
    m.provider = some a.provider ∧ m.success = exceptSucceeded a.outcome

/-- A request explicitly naming Stable Diffusion. -/
def paramsExplicitSD : UnifiedImageParams :=
  ⟨"a red fox in the snow".data, some ImageProvider.stableDiffusion⟩

/-- C9 counterexample: with the explicitly requested Stable Diffusion failing
and the Imagen fallback succeeding, the request makes two adapter attempts
but records a single metric event — a success event naming the originally
selected provider — so the failed attempt has no metric event at all. -/
theorem generateImage_metrics_counterexample :
    (ProviderManager.generateImage stFallback paramsExplicitSD (.ok ())).2.1.length = 2 ∧
    (ProviderManager.generateImage stFallback paramsExplicitSD (.ok ())).2.2.length = 1 ∧
    ¬ everyAttemptRecorded
        (ProviderManager.generateImage stFallback paramsExplicitSD (.ok ())).2.1
        (ProviderManager.generateImage stFallback paramsExplicitSD (.ok ())).2.2 := by
  have hrun : ProviderManager.generateImage stFallback paramsExplicitSD (.ok ()) =
      (.ok ⟨.imagen4, 3 / 100⟩,
        [⟨.stableDiffusion, .error eSD⟩, ⟨.imagen4, .ok ⟨.imagen4, 3 / 100⟩⟩],
        [⟨some .stableDiffusion, true, some (3 / 100), true⟩]) := rfl
  rw [hrun]
  refine ⟨rfl, rfl, ?_⟩
  intro h
  obtain ⟨m, hm, hprov, hsucc⟩ := h ⟨.stableDiffusion, .error eSD⟩ (by simp)
  simp only [List.mem_singleton] at hm
  subst hm
  simp [exceptSucceeded] at hsucc

/-- C9 amended: the orchestrator records exactly one metric event per
request, not one per adapter attempt: on overall success a single success
event naming the originally selected provider and carrying the result's
cost, on overall failure a single failure event naming the request's
explicit provider (or the unknown marker).  The cache write backing the
metric is caught inside `CacheService.set`, so its failure changes neither
the request outcome nor the attempts issued. -/
theorem generateImage_metrics_spec (st : ManagerState) (params : UnifiedImageParams)
    (redisSetEx : Except JsError Unit) :
    (ProviderManager.generateImage st params redisSetEx).2.2.length = 1 ∧
    (∀ (sel : ProviderSelection) (r : ImageResult),
      ProviderManager.selectProvider st params = .ok sel →
      (ProviderManager.generateImage st params redisSetEx).1 = .ok r →
      (ProviderManager.generateImage st params redisSetEx).2.2 =
        [⟨some sel.provider, true, some r.cost, CacheService.set redisSetEx⟩]) ∧
    (∀ e : JsError,
      (ProviderManager.generateImage st params redisSetEx).1 = .error e →
      (ProviderManager.generateImage st params redisSetEx).2.2 =
        [⟨params.provider, false, none, CacheService.set redisSetEx⟩]) ∧
    (∀ redis₂ : Except JsError Unit,
      (ProviderManager.generateImage st params redisSetEx).1 =
        (ProviderManager.generateImage st params redis₂).1 ∧
      (ProviderManager.generateImage st params redisSetEx).2.1 =
        (ProviderManager.generateImage st params redis₂).2.1) := by
  rcases hsel : ProviderManager.selectProvider st params with e | sel
  · have hform : ∀ redis, ProviderManager.generateImage st params redis =
        (.error e, [], [ProviderManager.recordFailure params.provider redis]) := by
      intro redis
      simp only [ProviderManager.generateImage, hsel]
    refine ⟨by rw [hform]; rfl, ?_, ?_, ?_⟩
    · intro sel r hsel' _
      simp at hsel'
    · intro e' _
      rw [hform]
      rfl
    · intro redis₂
      rw [hform, hform]
      exact ⟨rfl, rfl⟩
  · rcases hreg : st.providers sel.provider with - | prov
    · have hform : ∀ redis, ProviderManager.generateImage st params redis =
          (.error ⟨"Provider ".data ++ ProviderManager.providerNameChars sel.provider ++
              " not available".data, none⟩,
            [], [ProviderManager.recordFailure params.provider redis]) := by
        intro redis
        simp only [ProviderManager.generateImage, hsel, hreg]
      refine ⟨by rw [hform]; rfl, ?_, ?_, ?_⟩
      · intro sel' r hsel' hok
        rw [hform] at hok
        simp at hok
      · intro e' _
        rw [hform]
        rfl
      · intro redis₂
        rw [hform, hform]
        exact ⟨rfl, rfl⟩
    · rcases hgen : ProviderManager.generateWithFallback st prov sel.provider
        with ⟨res, attempts⟩
      rcases res with e' | r'
      · have hform : ∀ redis, ProviderManager.generateImage st params redis =
            (.error e', attempts, [ProviderManager.recordFailure params.provider redis]) := by
          intro redis
          simp only [ProviderManager.generateImage, hsel, hreg, hgen]
        refine ⟨by rw [hform]; rfl, ?_, ?_, ?_⟩
        · intro sel' r hsel' hok
          rw [hform] at hok
          simp at hok
        · intro e'' _
          rw [hform]
          rfl
        · intro redis₂
          rw [hform, hform]
          exact ⟨rfl, rfl⟩
      · have hform : ∀ redis, ProviderManager.generateImage st params redis =
            (.ok r', attempts,
              [ProviderManager.recordSuccess sel.provider r'.cost redis]) := by
          intro redis
          simp only [ProviderManager.generateImage, hsel, hreg, hgen]
        refine ⟨by rw [hform]; rfl, ?_, ?_, ?_⟩
        · intro sel' r hsel' hok
          rw [hform] at hok
          have hs : sel = sel' := Except.ok.inj hsel'
          have hr : r' = r := Except.ok.inj hok
          subst hs
          subst hr
          rw [hform]
          rfl
        · intro e'' hbad
          rw [hform] at hbad
          simp at hbad
        · intro redis₂
          rw [hform, hform]
          exact ⟨rfl, rfl⟩

theorem generateImage_metrics_spec_witness :
    (ProviderManager.generateImage stFallback paramsExplicitSD (.ok ())).2.2.length = 1 ∧
    (ProviderManager.generateImage stFallback paramsExplicitSD (.ok ())).2.2 =
      [⟨some ImageProvider.stableDiffusion, true, some (3 / 100), true⟩] ∧
    (ProviderManager.generateImage stFallback paramsExplicitSD (.ok ())).1 =
      (ProviderManager.generateImage stFallback paramsExplicitSD
        (.error eSD)).1 ∧
    (ProviderManager.generateImage stFallback paramsExplicitSD (.ok ())).2.1 =
      (ProviderManager.generateImage stFallback paramsExplicitSD
        (.error eSD)).2.1 := by
  have h := generateImage_metrics_spec stFallback paramsExplicitSD (.ok ())
  have hone := h.2.1 ⟨.stableDiffusion, "User specified", 2 / 100, 1⟩
    ⟨.imagen4, 3 / 100⟩ rfl rfl
  have hind := h.2.2.2 (.error eSD)
  exact ⟨h.1, hone, hind.1, hind.2⟩

end ImagePrompt
